import Mathlib

/-!
Shallow embedding of `mcp2210/device.py` (rdpoor/mcp2210).

The device session is modelled as an explicit trace of sent commands plus a
device behaviour: a function that, given the history of commands sent so far
and the command now being sent, yields the 64-byte response the device writes
back (decoded into its fields).  Every operation of `device.py` is translated
into a pure function threading this session state; a raised
`CommandException(code)` becomes `Except.error code`.

The module `mcp2210/commands.py` is not part of the sources here; only the
constructors used by `device.py` are modelled, as an inductive `Command`, and
the decoded response as a record carrying the union of the fields that
`device.py` reads (`status`, the SPI `data` bytes, the EEPROM `data` byte —
renamed `byte` to keep one record — a `gpio` word, and a `settings` record).
-/

/-- SPI transfer settings record.  `device.py` only ever touches the
`spi_tx_size` field (line 245); `rest` stands for all the remaining fields of
the settings structure, which the code carries around unmodified. -/
structure SPISettings where
  spi_tx_size : Nat
  rest : Nat
deriving DecidableEq

/-- Commands sent by `device.py`, one constructor per `commands.*Command`
constructor invocation appearing in the file.  The two GPIO instances
(direction and value) are built from command constructors passed as
parameters, so GPIO operations below are parameterised by arbitrary
commands just as `GPIOSettings.__init__` is. -/
inductive Command where
  | getSPISettings : Command
  | setSPISettings : SPISettings → Command
  | spiTransfer : List Nat → Command
  | readEEPROM : Int → Command
  | writeEEPROM : Int → Nat → Command
  | getGpioValue : Command
  | setGpioValue : Nat → Command
  | sendPassword : List Nat → Command
  | cancelTransfer : Command
deriving DecidableEq

/-- Decoded response report.  In the source each command class is paired with
its own response layout; this record carries the union of the fields the
device code reads.  The single EEPROM data byte (called `data` in the source)
is named `byte` here so it can coexist with the SPI `data` byte list. -/
structure Response where
  status : Nat
  data : List Nat
  byte : Nat
  gpio : Nat
  settings : SPISettings
deriving DecidableEq

/-- A device session: the behaviour of the device on the other end of the HID
transport (response as a function of the history of commands already sent and
the command now sent), plus the trace of commands sent so far. -/
structure Session where
  dev : List Command → Command → Response
  sent : List Command

/-- One raw HID exchange: write the command report, read the response report
(`device.py` lines 171-173).  The command is appended to the trace. -/
def sendRaw (s : Session) (c : Command) : Response × Session :=
  (s.dev s.sent c, ⟨s.dev, s.sent ++ [c]⟩)

/-- `MCP2210.sendCommand` (lines 154-176): performs the raw exchange, then
`if response.status != 0 and check: raise CommandException(response.status)`,
else returns the response. -/
def sendCommand (s : Session) (c : Command) (check : Bool) :
    Except Nat Response × Session :=
  let p := sendRaw s c
  (if p.1.status ≠ 0 ∧ check = true then .error p.1.status else .ok p.1, p.2)

/-- Getter of `remote_property` (lines 53-59): return the cached value if the
attribute exists, else fetch via `sendCommand(get_command())`, read
`field_name` off the response, cache it and return it.  If the fetch raises,
the cache is left unset.  Generic over the cached value type, the response
field projection and the fetch command, exactly as the source factory is. -/
def rp_getter {V : Type} (field : Response → V) (get_command : Command)
    (cache : Option V) (s : Session) : Except Nat V × Option V × Session :=
  match cache with
  | some v => (.ok v, some v, s)
  | none =>
      match sendCommand s get_command true with
      | (.error e, s1) => (.error e, none, s1)
      | (.ok r, s1) => (.ok (field r), some (field r), s1)

/-- Setter of `remote_property` (lines 61-63): `setattr(self, name, value)`
first, then `sendCommand(set_command(value))`.  The cache holds the new value
even when the push raises. -/
def rp_setter {V : Type} (set_command : V → Command) (v : V)
    (cache : Option V) (s : Session) : Except Nat Unit × Option V × Session :=
  match sendCommand s (set_command v) true with
  | (.error e, s1) => (.error e, some v, s1)
  | (.ok _, s1) => (.ok (), some v, s1)

/-- `GPIOSettings.raw` getter (lines 22-26): if `self._value is None`, fetch
`sendCommand(get_command()).gpio` and cache it; return the cached word. -/
def gpio_raw_get (get_command : Command) (cache : Option Nat) (s : Session) :
    Except Nat Nat × Option Nat × Session :=
  match cache with
  | some v => (.ok v, some v, s)
  | none =>
      match sendCommand s get_command true with
      | (.error e, s1) => (.error e, none, s1)
      | (.ok r, s1) => (.ok r.gpio, some r.gpio, s1)

/-- `GPIOSettings.raw` setter (lines 28-31): store the word in the cache,
then `sendCommand(set_command(value))`. -/
def gpio_raw_set (set_command : Nat → Command) (value : Nat)
    (cache : Option Nat) (s : Session) :
    Except Nat Unit × Option Nat × Session :=
  match sendCommand s (set_command value) true with
  | (.error e, s1) => (.error e, some value, s1)
  | (.ok _, s1) => (.ok (), some value, s1)

/-- `GPIOSettings.__getitem__` (lines 33-34): `(self.raw >> i) & 1`. -/
def gpio_getitem (get_command : Command) (i : Nat) (cache : Option Nat)
    (s : Session) : Except Nat Nat × Option Nat × Session :=
  match gpio_raw_get get_command cache s with
  | (.error e, c1, s1) => (.error e, c1, s1)
  | (.ok v, c1, s1) => (.ok ((v >>> i) &&& 1), c1, s1)

/-- `GPIOSettings.__setitem__` (lines 36-40): `self.raw |= 1 << i` when the
value is truthy, `self.raw &= ~(1 << i)` otherwise.  Both augmented
assignments read `raw` (getter) and then write `raw` (setter).  On
non-negative integers Python's `v & ~m` is `Nat.ldiff v m`. -/
def gpio_setitem (get_command : Command) (set_command : Nat → Command)
    (i : Nat) (value : Bool) (cache : Option Nat) (s : Session) :
    Except Nat Unit × Option Nat × Session :=
  match gpio_raw_get get_command cache s with
  | (.error e, c1, s1) => (.error e, c1, s1)
  | (.ok v, c1, s1) =>
      gpio_raw_set set_command
        (if value then v ||| (1 <<< i) else Nat.ldiff v (1 <<< i)) c1 s1

/-- `EEPROMData.__getitem__`, non-slice branch (line 85):
`sendCommand(commands.ReadEEPROMCommand(key)).data`, the key passed through
unmodified. -/
def eeprom_get_single (key : Int) (s : Session) : Except Nat Nat × Session :=
  match sendCommand s (.readEEPROM key) true with
  | (.error e, s1) => (.error e, s1)
  | (.ok r, s1) => (.ok r.byte, s1)

/-- `EEPROMData.__setitem__`, non-slice branch (line 92):
`sendCommand(commands.WriteEEPROMCommand(key, value))`, the key passed
through unmodified. -/
def eeprom_set_single (key : Int) (value : Nat) (s : Session) :
    Except Nat Unit × Session :=
  match sendCommand s (.writeEEPROM key value) true with
  | (.error e, s1) => (.error e, s1)
  | (.ok _, s1) => (.ok (), s1)

/-- Python's `slice(start, stop).indices(length)` for an explicit step-1 slice
with both endpoints given: each endpoint is shifted by `length` when negative
and then clamped into `[0, length]`. -/
def sliceIndices (start stop : Int) (length : Nat) : Nat × Nat :=
  (if start < 0 then (max 0 (start + length)).toNat else min start.toNat length,
   if stop < 0 then (max 0 (stop + length)).toNat else min stop.toNat length)

/-- The list of addresses `range(*key.indices(255))` visited by the slice
branches of `EEPROMData.__getitem__` / `__setitem__` (lines 83 and 89). -/
def eepromSliceKeys (start stop : Int) : List Int :=
  (List.range' (sliceIndices start stop 255).1
    ((sliceIndices start stop 255).2 - (sliceIndices start stop 255).1)).map
    (fun n : Nat => (n : Int))

/-- The read loop of `EEPROMData.__getitem__`'s slice branch (line 83):
`[self[i] for i in range(...)]`, each element one checked single-byte read;
a raised `CommandException` aborts the comprehension. -/
def eeprom_read_list : List Int → Session → Except Nat (List Nat) × Session
  | [], s => (.ok [], s)
  | k :: rest, s =>
      match eeprom_get_single k s with
      | (.error e, s1) => (.error e, s1)
      | (.ok v, s1) =>
          match eeprom_read_list rest s1 with
          | (.error e, s2) => (.error e, s2)
          | (.ok vs, s2) => (.ok (v :: vs), s2)

/-- `EEPROMData.__getitem__`, slice branch (lines 82-83). -/
def eeprom_get_slice (start stop : Int) (s : Session) :
    Except Nat (List Nat) × Session :=
  eeprom_read_list (eepromSliceKeys start stop) s

/-- Errors the slice write loop can raise: a `CommandException(code)` from a
single-byte write, or the `IndexError` from `value[i]` when the value
sequence is shorter than the clamped range. -/
inductive SliceErr where
  | cmd : Nat → SliceErr
  | idx : SliceErr
deriving DecidableEq

/-- The write loop of `EEPROMData.__setitem__`'s slice branch (lines 89-90):
`for i, j in enumerate(range(...)): self[j] = value[i]` — walk the address
list and the value list in lockstep; `value[i]` is evaluated first, so an
exhausted value list raises before anything is sent for that iteration. -/
def eeprom_write_list : List Int → List Nat → Session →
    Except SliceErr Unit × Session
  | [], _, s => (.ok (), s)
  | _ :: _, [], s => (.error .idx, s)
  | k :: rest, v :: vs, s =>
      match eeprom_set_single k v s with
      | (.error e, s1) => (.error (.cmd e), s1)
      | (.ok _, s1) => eeprom_write_list rest vs s1

/-- `EEPROMData.__setitem__`, slice branch (lines 88-90). -/
def eeprom_set_slice (start stop : Int) (values : List Nat) (s : Session) :
    Except SliceErr Unit × Session :=
  eeprom_write_list (eepromSliceKeys start stop) values s

/-- `MCP2210.authenticate` (lines 227-233): one checked `SendPasswordCommand`. -/
def authenticate (password : List Nat) (s : Session) :
    Except Nat Unit × Session :=
  match sendCommand s (.sendPassword password) true with
  | (.error e, s1) => (.error e, s1)
  | (.ok _, s1) => (.ok (), s1)

/-- `MCP2210.cancel_transfer` (lines 269-271): one checked
`CancelTransferCommand`. -/
def cancel_transfer (s : Session) : Except Nat Unit × Session :=
  match sendCommand s .cancelTransfer true with
  | (.error e, s1) => (.error e, s1)
  | (.ok _, s1) => (.ok (), s1)

/-- Outcome of the transfer engine: a returned value, a raised
`CommandException(code)`, or `spin` marking that the source's unbounded
`while` loop has run longer than the modelling fuel allows (the source has no
retry ceiling, so `spin` stands for a loop that has not yet terminated). -/
inductive XferOut (α : Type) where
  | ok : α → XferOut α
  | err : Nat → XferOut α
  | spin : XferOut α
deriving DecidableEq

/-- The inner `while status != 0` loop of `MCP2210.transfer` (lines 250-255
and 259-264; the two loops are textually identical up to the payload): send
`SPITransferCommand(payload)` with `check=False`; stop and yield the response
on status 0; resend on status 0xf8; raise `CommandException(status)` on any
other status.  `fuel` bounds the number of iterations modelled. -/
def spiRetryLoop (payload : List Nat) : Nat → Session → XferOut Response × Session
  | 0, s => (.spin, s)
  | fuel + 1, s =>
      let p := sendRaw s (.spiTransfer payload)
      if p.1.status = 0 then (.ok p.1, p.2)
      else if p.1.status = 0xf8 then spiRetryLoop payload fuel p.2
      else (.err p.1.status, p.2)

/-- The `for i in range(0, len(data), 60)` loop of `MCP2210.transfer`
(lines 249-256), iterating over the list of chunk offsets: for each offset
run the retry loop on `data[i:i + 60]` and append the successful response's
`data` to the accumulated receive buffer. -/
def chunkPhase (data : List Nat) (fuel : Nat) :
    List Nat → List Nat → Session → XferOut (List Nat) × Session
  | [], response, s => (.ok response, s)
  | i :: rest, response, s =>
      match spiRetryLoop ((data.drop i).take 60) fuel s with
      | (.ok r, s1) => chunkPhase data fuel rest (response ++ r.data) s1
      | (.err e, s1) => (.err e, s1)
      | (.spin, s1) => (.spin, s1)

/-- The offsets `range(0, n, 60)` visited by the chunk loop. -/
def chunkOffsets (n : Nat) : List Nat :=
  (List.range ((n + 59) / 60)).map (fun k => k * 60)

/-- The `while len(response) < len(data)` drain loop of `MCP2210.transfer`
(lines 258-265): while the receive buffer is short, run the retry loop with
an empty payload and append the returned bytes.  `outer` bounds the number of
drain iterations modelled. -/
def drainPhase (dataLen innerFuel : Nat) :
    Nat → List Nat → Session → XferOut (List Nat) × Session
  | 0, response, s =>
      if response.length < dataLen then (.spin, s) else (.ok response, s)
  | outer + 1, response, s =>
      if response.length < dataLen then
        match spiRetryLoop [] innerFuel s with
        | (.ok r, s1) => drainPhase dataLen innerFuel outer (response ++ r.data) s1
        | (.err e, s1) => (.err e, s1)
        | (.spin, s1) => (.spin, s1)
      else (.ok response, s)

/-- `MCP2210.transfer` (lines 235-267).  `settings = self.transfer_settings`
is the cached remote property getter instantiated at lines 213-218 with the
`GetSPISettingsCommand`/`SetSPISettingsCommand` pair and the `settings`
response field; `settings.spi_tx_size = len(data)` updates that field; the
assignment `self.transfer_settings = settings` is the property setter.  Then
the chunk loop runs over `range(0, len(data), 60)` and the drain loop tops up
the receive buffer.  The transfer-settings cache is threaded alongside the
session. -/
def transfer (data : List Nat) (fuel : Nat) (cache : Option SPISettings)
    (s : Session) : XferOut (List Nat) × Option SPISettings × Session :=
  match rp_getter Response.settings .getSPISettings cache s with
  | (.error e, c1, s1) => (.err e, c1, s1)
  | (.ok settings0, c1, s1) =>
      let settings : SPISettings := { settings0 with spi_tx_size := data.length }
      match rp_setter Command.setSPISettings settings c1 s1 with
      | (.error e, c2, s2) => (.err e, c2, s2)
      | (.ok _, c2, s2) =>
          match chunkPhase data fuel (chunkOffsets data.length) [] s2 with
          | (.err e, s3) => (.err e, c2, s3)
          | (.spin, s3) => (.spin, c2, s3)
          | (.ok response, s3) =>
              match drainPhase data.length fuel fuel response s3 with
              | (.err e, s4) => (.err e, c2, s4)
              | (.spin, s4) => (.spin, c2, s4)
              | (.ok response1, s4) => (.ok response1, c2, s4)

/-- The EEPROM contents determined by a command history: the byte most
recently written to an address by a `writeEEPROM` command, or the initial
contents for addresses never written.  Used to build a device behaviour that
stores written bytes faithfully. -/
def eepromState (init : Int → Nat) (hist : List Command) : Int → Nat :=
  hist.foldl
    (fun f c =>
      match c with
      | .writeEEPROM k v => fun a => if a = k then v else f a
      | _ => f)
    init

/-- A device that answers every command with status 0 and serves EEPROM reads
from the bytes written so far (initial contents `init`); all other response
fields are zero. -/
def eepromDevice (init : Int → Nat) : List Command → Command → Response :=
  fun hist c =>
    match c with
    | .readEEPROM k => ⟨0, [], eepromState init hist k, 0, ⟨0, 0⟩⟩
    | _ => ⟨0, [], 0, 0, ⟨0, 0⟩⟩

/-- A device used as a concrete witness input: it answers every command with
status 0 and echoes an SPI payload back as the received data. -/
def echoDevice : List Command → Command → Response :=
  fun _ c =>
    match c with
    | .spiTransfer p => ⟨0, p, 0, 0, ⟨0, 0⟩⟩
    | _ => ⟨0, [], 0, 0, ⟨0, 0⟩⟩

/-- A device used as a concrete counterexample input: every command succeeds,
and every SPI exchange returns two bytes of received data. -/
def twoByteDevice : List Command → Command → Response :=
  fun _ c =>
    match c with
    | .spiTransfer _ => ⟨0, [0, 0], 0, 0, ⟨0, 0⟩⟩
    | _ => ⟨0, [], 0, 0, ⟨0, 0⟩⟩

/-- A device used as a concrete witness input: it answers every command with
the fatal status 5. -/
def err5Device : List Command → Command → Response :=
  fun _ _ => ⟨5, [], 0, 0, ⟨0, 0⟩⟩

/-- A device used as a concrete witness input: it answers the first two
commands of the session with the Busy status 0xf8 and every later command
with status 0, echoing SPI payloads. -/
def busyTwiceDevice : List Command → Command → Response :=
  fun hist c =>
    if hist.length < 2 then ⟨0xf8, [7], 0, 0, ⟨0, 0⟩⟩
    else
      match c with
      | .spiTransfer p => ⟨0, p, 0, 0, ⟨0, 0⟩⟩
      | _ => ⟨0, [], 0, 0, ⟨0, 0⟩⟩

/-- The `WriteEEPROMCommand`s produced by writing a value list to a key list
elementwise, in order. -/
def writeCmds (ks : List Int) (vs : List Nat) : List Command :=
  (ks.zip vs).map (fun p => .writeEEPROM p.1 p.2)

/- ========================================================================
   Closed forms for the basic operations.
   ======================================================================== -/

theorem sendCommand_snd (s : Session) (c : Command) (b : Bool) :
    (sendCommand s c b).2 = ⟨s.dev, s.sent ++ [c]⟩ := rfl

theorem sendCommand_ok (s : Session) (c : Command) (b : Bool)
    (h : (s.dev s.sent c).status = 0) :
    sendCommand s c b = (.ok (s.dev s.sent c), ⟨s.dev, s.sent ++ [c]⟩) := by
  simp [sendCommand, sendRaw, h]

theorem sendCommand_err (s : Session) (c : Command)
    (h : (s.dev s.sent c).status ≠ 0) :
    sendCommand s c true =
      (.error (s.dev s.sent c).status, ⟨s.dev, s.sent ++ [c]⟩) := by
  simp [sendCommand, sendRaw, h]

theorem sendCommand_unchecked (s : Session) (c : Command) :
    sendCommand s c false = (.ok (s.dev s.sent c), ⟨s.dev, s.sent ++ [c]⟩) := by
  simp [sendCommand, sendRaw]

theorem rp_getter_none_eq {V : Type} (field : Response → V) (gc : Command)
    (s : Session) :
    rp_getter field gc none s =
      (if (s.dev s.sent gc).status = 0
        then (.ok (field (s.dev s.sent gc)), some (field (s.dev s.sent gc)),
          ⟨s.dev, s.sent ++ [gc]⟩)
        else (.error (s.dev s.sent gc).status, none, ⟨s.dev, s.sent ++ [gc]⟩)) := by
  by_cases h : (s.dev s.sent gc).status = 0
  · rw [rp_getter, sendCommand_ok s gc true h]; simp [h]
  · rw [rp_getter, sendCommand_err s gc h]; simp [h]

theorem rp_setter_eq {V : Type} (sc : V → Command) (v : V) (cache : Option V)
    (s : Session) :
    rp_setter sc v cache s =
      ((if (s.dev s.sent (sc v)).status = 0 then .ok ()
          else .error (s.dev s.sent (sc v)).status),
        some v, ⟨s.dev, s.sent ++ [sc v]⟩) := by
  by_cases h : (s.dev s.sent (sc v)).status = 0
  · rw [rp_setter, sendCommand_ok s (sc v) true h]; simp [h]
  · rw [rp_setter, sendCommand_err s (sc v) h]; simp [h]

theorem gpio_raw_get_none_eq (gc : Command) (s : Session) :
    gpio_raw_get gc none s =
      (if (s.dev s.sent gc).status = 0
        then (.ok (s.dev s.sent gc).gpio, some (s.dev s.sent gc).gpio,
          ⟨s.dev, s.sent ++ [gc]⟩)
        else (.error (s.dev s.sent gc).status, none, ⟨s.dev, s.sent ++ [gc]⟩)) := by
  by_cases h : (s.dev s.sent gc).status = 0
  · rw [gpio_raw_get, sendCommand_ok s gc true h]; simp [h]
  · rw [gpio_raw_get, sendCommand_err s gc h]; simp [h]

theorem gpio_raw_set_eq (sc : Nat → Command) (value : Nat) (cache : Option Nat)
    (s : Session) :
    gpio_raw_set sc value cache s =
      ((if (s.dev s.sent (sc value)).status = 0 then .ok ()
          else .error (s.dev s.sent (sc value)).status),
        some value, ⟨s.dev, s.sent ++ [sc value]⟩) := by
  by_cases h : (s.dev s.sent (sc value)).status = 0
  · rw [gpio_raw_set, sendCommand_ok s (sc value) true h]; simp [h]
  · rw [gpio_raw_set, sendCommand_err s (sc value) h]; simp [h]

theorem eeprom_get_single_eq (a : Int) (s : Session) :
    eeprom_get_single a s =
      ((if (s.dev s.sent (.readEEPROM a)).status = 0
          then .ok (s.dev s.sent (.readEEPROM a)).byte
          else .error (s.dev s.sent (.readEEPROM a)).status),
        ⟨s.dev, s.sent ++ [.readEEPROM a]⟩) := by
  by_cases h : (s.dev s.sent (.readEEPROM a)).status = 0
  · rw [eeprom_get_single, sendCommand_ok s (.readEEPROM a) true h]; simp [h]
  · rw [eeprom_get_single, sendCommand_err s (.readEEPROM a) h]; simp [h]

theorem eeprom_set_single_eq (a : Int) (v : Nat) (s : Session) :
    eeprom_set_single a v s =
      ((if (s.dev s.sent (.writeEEPROM a v)).status = 0 then .ok ()
          else .error (s.dev s.sent (.writeEEPROM a v)).status),
        ⟨s.dev, s.sent ++ [.writeEEPROM a v]⟩) := by
  by_cases h : (s.dev s.sent (.writeEEPROM a v)).status = 0
  · rw [eeprom_set_single, sendCommand_ok s (.writeEEPROM a v) true h]; simp [h]
  · rw [eeprom_set_single, sendCommand_err s (.writeEEPROM a v) h]; simp [h]

theorem authenticate_eq (password : List Nat) (s : Session) :
    authenticate password s =
      ((if (s.dev s.sent (.sendPassword password)).status = 0 then .ok ()
          else .error (s.dev s.sent (.sendPassword password)).status),
        ⟨s.dev, s.sent ++ [.sendPassword password]⟩) := by
  by_cases h : (s.dev s.sent (.sendPassword password)).status = 0
  · rw [authenticate, sendCommand_ok s (.sendPassword password) true h]; simp [h]
  · rw [authenticate, sendCommand_err s (.sendPassword password) h]; simp [h]

theorem cancel_transfer_eq (s : Session) :
    cancel_transfer s =
      ((if (s.dev s.sent .cancelTransfer).status = 0 then .ok ()
          else .error (s.dev s.sent .cancelTransfer).status),
        ⟨s.dev, s.sent ++ [.cancelTransfer]⟩) := by
  by_cases h : (s.dev s.sent .cancelTransfer).status = 0
  · rw [cancel_transfer, sendCommand_ok s .cancelTransfer true h]; simp [h]
  · rw [cancel_transfer, sendCommand_err s .cancelTransfer h]; simp [h]

theorem shiftRight_and_one (x j : Nat) :
    (x >>> j) &&& 1 = if x.testBit j then 1 else 0 := by
  rw [Nat.and_one_is_mod, Nat.shiftRight_eq_div_pow, Nat.testBit_to_div_mod]
  rcases Nat.mod_two_eq_zero_or_one (x / 2 ^ j) with h | h <;> simp [h]

/-- C4: `sendCommand` with checking enabled raises `CommandException` carrying
the status code iff the decoded response status is nonzero, and otherwise
returns the decoded response.  Every public operation other than the
SPITransfer loop inside `transfer` goes through this checked path — the
single-byte EEPROM accessors, the GPIO whole-word get and set, the cached
remote-property fetch and push, `authenticate` and `cancel_transfer` — so for
all non-SPITransfer commands any nonzero status is immediately fatal, with
exactly one command sent and no retry. -/
theorem sendCommand_checked_fatal :
    (∀ (s : Session) (c : Command) (code : Nat),
      (s.dev s.sent c).status = code → code ≠ 0 →
      sendCommand s c true = (.error code, ⟨s.dev, s.sent ++ [c]⟩)) ∧
    (∀ (s : Session) (c : Command), (s.dev s.sent c).status = 0 →
      sendCommand s c true = (.ok (s.dev s.sent c), ⟨s.dev, s.sent ++ [c]⟩)) ∧
    (∀ (a : Int) (s : Session) (code : Nat),
      (s.dev s.sent (.readEEPROM a)).status = code → code ≠ 0 →
      eeprom_get_single a s =
        (.error code, ⟨s.dev, s.sent ++ [.readEEPROM a]⟩)) ∧
    (∀ (a : Int) (v : Nat) (s : Session) (code : Nat),
      (s.dev s.sent (.writeEEPROM a v)).status = code → code ≠ 0 →
      eeprom_set_single a v s =
        (.error code, ⟨s.dev, s.sent ++ [.writeEEPROM a v]⟩)) ∧
    (∀ (gc : Command) (s : Session) (code : Nat),
      (s.dev s.sent gc).status = code → code ≠ 0 →
      gpio_raw_get gc none s = (.error code, none, ⟨s.dev, s.sent ++ [gc]⟩)) ∧
    (∀ (sc : Nat → Command) (value : Nat) (cache : Option Nat) (s : Session)
      (code : Nat),
      (s.dev s.sent (sc value)).status = code → code ≠ 0 →
      gpio_raw_set sc value cache s =
        (.error code, some value, ⟨s.dev, s.sent ++ [sc value]⟩)) ∧
    (∀ (V : Type) (field : Response → V) (gc : Command) (s : Session)
      (code : Nat),
      (s.dev s.sent gc).status = code → code ≠ 0 →
      rp_getter field gc none s =
        (.error code, none, ⟨s.dev, s.sent ++ [gc]⟩)) ∧
    (∀ (V : Type) (sc : V → Command) (v : V) (cache : Option V) (s : Session)
      (code : Nat),
      (s.dev s.sent (sc v)).status = code → code ≠ 0 →
      rp_setter sc v cache s =
        (.error code, some v, ⟨s.dev, s.sent ++ [sc v]⟩)) ∧
    (∀ (pw : List Nat) (s : Session) (code : Nat),
      (s.dev s.sent (.sendPassword pw)).status = code → code ≠ 0 →
      authenticate pw s =
        (.error code, ⟨s.dev, s.sent ++ [.sendPassword pw]⟩)) ∧
    (∀ (s : Session) (code : Nat),
      (s.dev s.sent .cancelTransfer).status = code → code ≠ 0 →
      cancel_transfer s = (.error code, ⟨s.dev, s.sent ++ [.cancelTransfer]⟩)) := by
  refine ⟨?_, ?_, ?_, ?_, ?_, ?_, ?_, ?_, ?_, ?_⟩
  · intro s c code hc hne; subst hc; exact sendCommand_err s c hne
  · intro s c h; exact sendCommand_ok s c true h
  · intro a s code hc hne; subst hc; rw [eeprom_get_single_eq]; simp [hne]
  · intro a v s code hc hne; subst hc; rw [eeprom_set_single_eq]; simp [hne]
  · intro gc s code hc hne; subst hc; rw [gpio_raw_get_none_eq]; simp [hne]
  · intro sc value cache s code hc hne; subst hc; rw [gpio_raw_set_eq]
    simp [hne]
  · intro V field gc s code hc hne; subst hc; rw [rp_getter_none_eq]
    simp [hne]
  · intro V sc v cache s code hc hne; subst hc; rw [rp_setter_eq]; simp [hne]
  · intro pw s code hc hne; subst hc; rw [authenticate_eq]; simp [hne]
  · intro s code hc hne; subst hc; rw [cancel_transfer_eq]; simp [hne]

theorem sendCommand_checked_fatal_witness :
    sendCommand ⟨err5Device, []⟩ .cancelTransfer true =
      (.error 5, ⟨err5Device, [.cancelTransfer]⟩) ∧
    sendCommand ⟨echoDevice, []⟩ .cancelTransfer true =
      (.ok (echoDevice [] .cancelTransfer), ⟨echoDevice, [.cancelTransfer]⟩) ∧
    eeprom_get_single 300 ⟨err5Device, []⟩ =
      (.error 5, ⟨err5Device, [.readEEPROM 300]⟩) ∧
    eeprom_set_single (-1) 7 ⟨err5Device, []⟩ =
      (.error 5, ⟨err5Device, [.writeEEPROM (-1) 7]⟩) ∧
    gpio_raw_get .getGpioValue none ⟨err5Device, []⟩ =
      (.error 5, none, ⟨err5Device, [.getGpioValue]⟩) ∧
    gpio_raw_set .setGpioValue 3 none ⟨err5Device, []⟩ =
      (.error 5, some 3, ⟨err5Device, [.setGpioValue 3]⟩) ∧
    rp_getter Response.gpio .getGpioValue none ⟨err5Device, []⟩ =
      (.error 5, none, ⟨err5Device, [.getGpioValue]⟩) ∧
    rp_setter Command.setGpioValue 3 none ⟨err5Device, []⟩ =
      (.error 5, some 3, ⟨err5Device, [.setGpioValue 3]⟩) ∧
    authenticate [1, 2] ⟨err5Device, []⟩ =
      (.error 5, ⟨err5Device, [.sendPassword [1, 2]]⟩) ∧
    cancel_transfer ⟨err5Device, []⟩ =
      (.error 5, ⟨err5Device, [.cancelTransfer]⟩) :=
  ⟨sendCommand_checked_fatal.1 ⟨err5Device, []⟩ .cancelTransfer 5 rfl
      (by decide),
    sendCommand_checked_fatal.2.1 ⟨echoDevice, []⟩ .cancelTransfer rfl,
    sendCommand_checked_fatal.2.2.1 300 ⟨err5Device, []⟩ 5 rfl (by decide),
    sendCommand_checked_fatal.2.2.2.1 (-1) 7 ⟨err5Device, []⟩ 5 rfl (by decide),
    sendCommand_checked_fatal.2.2.2.2.1 .getGpioValue ⟨err5Device, []⟩ 5 rfl
      (by decide),
    sendCommand_checked_fatal.2.2.2.2.2.1 .setGpioValue 3 none ⟨err5Device, []⟩ 5
      rfl (by decide),
    sendCommand_checked_fatal.2.2.2.2.2.2.1 Nat Response.gpio .getGpioValue
      ⟨err5Device, []⟩ 5 rfl (by decide),
    sendCommand_checked_fatal.2.2.2.2.2.2.2.1 Nat Command.setGpioValue 3 none
      ⟨err5Device, []⟩ 5 rfl (by decide),
    sendCommand_checked_fatal.2.2.2.2.2.2.2.2.1 [1, 2] ⟨err5Device, []⟩ 5 rfl
      (by decide),
    sendCommand_checked_fatal.2.2.2.2.2.2.2.2.2 ⟨err5Device, []⟩ 5 rfl
      (by decide)⟩

/-- C5: for every cached remote property, the first `get()` issues exactly one
fetch command and caches the decoded field; a `get()` with the cache populated
issues zero commands and returns the cached value; `set(v)` issues exactly one
push command, leaves the cache holding `v`, and a subsequent `get()` returns
`v` without a fetch. -/
theorem rp_cache_protocol {V : Type} (field : Response → V) (gc : Command)
    (sc : V → Command) (s : Session) :
    ((s.dev s.sent gc).status = 0 →
      rp_getter field gc none s =
        (.ok (field (s.dev s.sent gc)), some (field (s.dev s.sent gc)),
          ⟨s.dev, s.sent ++ [gc]⟩)) ∧
    (∀ v : V, rp_getter field gc (some v) s = (.ok v, some v, s)) ∧
    (∀ (v : V) (cache : Option V),
      ((rp_setter sc v cache s).2.1 = some v ∧
        (rp_setter sc v cache s).2.2 = ⟨s.dev, s.sent ++ [sc v]⟩) ∧
      ∀ s1 : Session,
        rp_getter field gc (some v) s1 = (.ok v, some v, s1)) := by
  refine ⟨?_, fun v => rfl, ?_⟩
  · intro h; rw [rp_getter_none_eq]; simp [h]
  · intro v cache
    refine ⟨⟨?_, ?_⟩, fun s1 => rfl⟩ <;> rw [rp_setter_eq]

theorem rp_cache_protocol_witness :
    rp_getter Response.gpio .getGpioValue none ⟨echoDevice, []⟩ =
      (.ok 0, some 0, ⟨echoDevice, [.getGpioValue]⟩) ∧
    rp_getter Response.gpio .getGpioValue (some 3) ⟨echoDevice, []⟩ =
      (.ok 3, some 3, ⟨echoDevice, []⟩) :=
  ⟨(rp_cache_protocol Response.gpio .getGpioValue Command.setGpioValue
      ⟨echoDevice, []⟩).1 rfl,
    (rp_cache_protocol Response.gpio .getGpioValue Command.setGpioValue
      ⟨echoDevice, []⟩).2.1 3⟩

/-- C9: a cached remote property's `set(value)` stores `value` into the cache
before pushing, so when the push command fails with a nonzero status the
setter raises `CommandException` with that status, the cache still holds
`value`, and a subsequent `get()` returns `value` without issuing any
command. -/
theorem rp_setter_cache_despite_error {V : Type} (field : Response → V)
    (gc : Command) (sc : V → Command) (v : V) (cache : Option V) (s : Session)
    (code : Nat) (hc : (s.dev s.sent (sc v)).status = code)
    (hne : code ≠ 0) :
    rp_setter sc v cache s =
      (.error code, some v, ⟨s.dev, s.sent ++ [sc v]⟩) ∧
    ∀ s1 : Session, rp_getter field gc (some v) s1 = (.ok v, some v, s1) := by
  subst hc
  exact ⟨by rw [rp_setter_eq]; simp [hne], fun s1 => rfl⟩

theorem rp_setter_cache_despite_error_witness :
    rp_setter Command.setGpioValue 9 none ⟨err5Device, []⟩ =
      (.error 5, some 9, ⟨err5Device, [.setGpioValue 9]⟩) ∧
    ∀ s1 : Session,
      rp_getter Response.gpio .getGpioValue (some 9) s1 = (.ok 9, some 9, s1) :=
  rp_setter_cache_despite_error Response.gpio .getGpioValue Command.setGpioValue 9 none
    ⟨err5Device, []⟩ 5 rfl (by decide)

/-- C10: a single-index EEPROM read issues exactly one `ReadEEPROMCommand`
with the address passed through unmodified, and a single-index write exactly
one `WriteEEPROMCommand`, with no validation or clamping even for addresses
outside `[0, 255)`; only the slice branches clamp their address range via
`slice.indices(255)`. -/
theorem eeprom_single_unclamped (a : Int) (v : Nat) (s : Session) :
    (eeprom_get_single a s).2 = ⟨s.dev, s.sent ++ [.readEEPROM a]⟩ ∧
    (eeprom_set_single a v s).2 = ⟨s.dev, s.sent ++ [.writeEEPROM a v]⟩ ∧
    eepromSliceKeys 0 300 = (List.range' 0 255).map (fun n : Nat => (n : Int)) ∧
    eepromSliceKeys (-1000) 1000 =
      (List.range' 0 255).map (fun n : Nat => (n : Int)) := by
  refine ⟨?_, ?_, by norm_num [eepromSliceKeys, sliceIndices],
    by norm_num [eepromSliceKeys, sliceIndices]⟩
  · rw [eeprom_get_single_eq]
  · rw [eeprom_set_single_eq]

/-- C7: with the GPIO word cached, `writeBit(i, true)` issues exactly one
whole-word Set command carrying the cached word with bit `i` set (and no
fetch), a subsequent `readBit(i)` returns 1, and every bit other than `i`
reads exactly as it did from the pre-write cached word. -/
theorem gpio_writeBit_true (gc : Command) (sc : Nat → Command) (i v : Nat)
    (s : Session) (hok : (s.dev s.sent (sc (v ||| (1 <<< i)))).status = 0) :
    gpio_setitem gc sc i true (some v) s =
      (.ok (), some (v ||| (1 <<< i)),
        ⟨s.dev, s.sent ++ [sc (v ||| (1 <<< i))]⟩) ∧
    (∀ s1 : Session,
      gpio_getitem gc i (some (v ||| (1 <<< i))) s1 =
        (.ok 1, some (v ||| (1 <<< i)), s1)) ∧
    (∀ j : Nat, j ≠ i →
      ((v ||| (1 <<< i)) >>> j) &&& 1 = (v >>> j) &&& 1) := by
  refine ⟨?_, ?_, ?_⟩
  · show gpio_raw_set sc (v ||| (1 <<< i)) (some v) s = _
    rw [gpio_raw_set_eq]; simp [hok]
  · intro s1
    have hbit : ((v ||| (1 <<< i)) >>> i) &&& 1 = 1 := by
      rw [shiftRight_and_one, Nat.one_shiftLeft, Nat.testBit_or,
        Nat.testBit_two_pow_self]
      simp
    simp [gpio_getitem, gpio_raw_get, hbit]
  · intro j hne
    rw [shiftRight_and_one, shiftRight_and_one, Nat.one_shiftLeft,
      Nat.testBit_or, Nat.testBit_two_pow_of_ne (Ne.symm hne)]
    simp

theorem eepromState_append (init : Int → Nat) (h1 h2 : List Command) :
    eepromState init (h1 ++ h2) = eepromState (eepromState init h1) h2 := by
  simp [eepromState, List.foldl_append]

theorem eepromState_writeCmds_not_mem :
    ∀ (ks : List Int) (vs : List Nat) (g : Int → Nat) (k : Int), k ∉ ks →
      eepromState g (writeCmds ks vs) k = g k
  | [], _, _, _, _ => rfl
  | _ :: _, [], _, _, _ => rfl
  | k1 :: ks, v1 :: vs, g, k, hmem => by
      have h1 : k ≠ k1 := fun hx => hmem (hx ▸ List.mem_cons_self k1 ks)
      have h2 : k ∉ ks := fun hx => hmem (List.mem_cons_of_mem _ hx)
      show eepromState (fun x => if x = k1 then v1 else g x)
        (writeCmds ks vs) k = g k
      rw [eepromState_writeCmds_not_mem ks vs _ k h2]
      simp [h1]

theorem map_eepromState_writeCmds :
    ∀ (ks : List Int) (vs : List Nat) (g : Int → Nat), ks.Nodup →
      ks.length = vs.length →
      ks.map (eepromState g (writeCmds ks vs)) = vs
  | [], [], _, _, _ => rfl
  | [], _ :: _, _, _, hlen => by simp at hlen
  | _ :: _, [], _, _, hlen => by simp at hlen
  | k :: ks, v :: vs, g, hnd, hlen => by
      have hk : k ∉ ks := (List.nodup_cons.mp hnd).1
      have hnd2 : ks.Nodup := (List.nodup_cons.mp hnd).2
      have ih := map_eepromState_writeCmds ks vs
        (fun x => if x = k then v else g x) hnd2 (by simpa using hlen)
      show eepromState g (writeCmds (k :: ks) (v :: vs)) k ::
        ks.map (eepromState g (writeCmds (k :: ks) (v :: vs))) = v :: vs
      rw [show eepromState g (writeCmds (k :: ks) (v :: vs)) =
        eepromState (fun x => if x = k then v else g x) (writeCmds ks vs)
        from rfl]
      rw [eepromState_writeCmds_not_mem ks vs _ k hk]
      simp [ih]

theorem eeprom_read_list_eepromDevice (init : Int → Nat) :
    ∀ (ks : List Int) (h : List Command),
      eeprom_read_list ks ⟨eepromDevice init, h⟩ =
        (.ok (ks.map (eepromState init h)),
          ⟨eepromDevice init, h ++ ks.map (fun k => .readEEPROM k)⟩)
  | [], h => by simp [eeprom_read_list]
  | k :: ks, h => by
      have hs : eeprom_get_single k ⟨eepromDevice init, h⟩ =
          (.ok (eepromState init h k),
            ⟨eepromDevice init, h ++ [.readEEPROM k]⟩) := by
        rw [eeprom_get_single_eq]; rfl
      have hstable : eepromState init (h ++ [.readEEPROM k]) =
          eepromState init h := by
        rw [eepromState_append]
        rfl
      have ih := eeprom_read_list_eepromDevice init ks (h ++ [.readEEPROM k])
      rw [eeprom_read_list]
      simp only [hs, ih, hstable, List.map_cons, List.append_assoc,
        List.cons_append, List.nil_append]

theorem eeprom_write_list_eepromDevice (init : Int → Nat) :
    ∀ (ks : List Int) (vs : List Nat) (h : List Command),
      ks.length ≤ vs.length →
      eeprom_write_list ks vs ⟨eepromDevice init, h⟩ =
        (.ok (), ⟨eepromDevice init, h ++ writeCmds ks vs⟩)
  | [], _, h, _ => by simp [eeprom_write_list, writeCmds]
  | _ :: _, [], _, hlen => by simp at hlen
  | k :: ks, v :: vs, h, hlen => by
      have hs : eeprom_set_single k v ⟨eepromDevice init, h⟩ =
          (.ok (), ⟨eepromDevice init, h ++ [.writeEEPROM k v]⟩) := by
        rw [eeprom_set_single_eq]; rfl
      have ih := eeprom_write_list_eepromDevice init ks vs
        (h ++ [.writeEEPROM k v]) (by simpa using hlen)
      rw [eeprom_write_list]
      simp only [hs, ih, List.append_assoc, List.cons_append, List.nil_append]
      simp [writeCmds]

theorem eepromSliceKeys_nat (a b : Nat) (hab : a ≤ b) (hb : b ≤ 255) :
    eepromSliceKeys a b = (List.range' a (b - a)).map (fun n : Nat => (n : Int)) := by
  have h1 : sliceIndices a b 255 = (a, b) := by
    unfold sliceIndices
    rw [if_neg (by omega), if_neg (by omega)]
    simp only [Prod.mk.injEq]
    constructor <;> omega
  simp [eepromSliceKeys, h1]

/-- C6: EEPROM range reads and writes are ordered elementwise compositions of
one single-byte round trip per address over `[start, end)` clamped to
`[0, 255)`, in ascending address order; consequently, against a device that
stores each written byte faithfully, `writeRange(s, values)` followed by
`readRange(s, e)` returns `values` whenever the lengths match. -/
theorem eeprom_range_roundtrip (init : Int → Nat) (a b : Nat)
    (values : List Nat) (h : List Command) (hab : a ≤ b) (hb : b ≤ 255)
    (hlen : values.length = b - a) :
    eepromSliceKeys a b = (List.range' a (b - a)).map (fun n : Nat => (n : Int)) ∧
    eeprom_set_slice a b values ⟨eepromDevice init, h⟩ =
      (.ok (), ⟨eepromDevice init,
        h ++ writeCmds ((List.range' a (b - a)).map (fun n : Nat => (n : Int)))
          values⟩) ∧
    (eeprom_get_slice a b
        (eeprom_set_slice a b values ⟨eepromDevice init, h⟩).2).1 =
      .ok values := by
  have hkeys := eepromSliceKeys_nat a b hab hb
  have hklen : ((List.range' a (b - a)).map
      (fun n : Nat => (n : Int))).length = values.length := by
    simp [hlen]
  have hw : eeprom_set_slice a b values ⟨eepromDevice init, h⟩ =
      (.ok (), ⟨eepromDevice init,
        h ++ writeCmds ((List.range' a (b - a)).map (fun n : Nat => (n : Int)))
          values⟩) := by
    rw [eeprom_set_slice, hkeys]
    exact eeprom_write_list_eepromDevice init _ values h (le_of_eq hklen)
  refine ⟨hkeys, hw, ?_⟩
  rw [eeprom_get_slice, hkeys, hw]
  rw [eeprom_read_list_eepromDevice init _ _]
  have hnd : ((List.range' a (b - a)).map (fun n : Nat => (n : Int))).Nodup := by
    refine List.Nodup.map (fun x y hxy => ?_) (List.nodup_range' _ _ 1 (by norm_num))
    exact_mod_cast hxy
  rw [eepromState_append]
  rw [map_eepromState_writeCmds _ values _ hnd hklen]

theorem eeprom_range_roundtrip_witness :
    (10 : Nat) ≤ 14 ∧ (14 : Nat) ≤ 255 ∧
    (eeprom_get_slice 10 14
        (eeprom_set_slice 10 14 [2, 4, 8, 16]
          ⟨eepromDevice (fun _ => 0), []⟩).2).1 = .ok [2, 4, 8, 16] :=
  ⟨by decide, by decide,
    (eeprom_range_roundtrip (fun _ => 0) 10 14 [2, 4, 8, 16] [] (by decide)
      (by decide) (by decide)).2.2⟩

theorem gpio_writeBit_true_witness :
    gpio_setitem .getGpioValue .setGpioValue 2 true (some 9) ⟨echoDevice, []⟩ =
      (.ok (), some 13, ⟨echoDevice, [.setGpioValue 13]⟩) ∧
    gpio_getitem .getGpioValue 2 (some 13) ⟨echoDevice, []⟩ =
      (.ok 1, some 13, ⟨echoDevice, []⟩) ∧
    (13 >>> 0) &&& 1 = (9 >>> 0) &&& 1 :=
  ⟨(gpio_writeBit_true .getGpioValue .setGpioValue 2 9 ⟨echoDevice, []⟩ rfl).1,
    (gpio_writeBit_true .getGpioValue .setGpioValue 2 9 ⟨echoDevice, []⟩ rfl).2.1
      ⟨echoDevice, []⟩,
    (gpio_writeBit_true .getGpioValue .setGpioValue 2 9 ⟨echoDevice, []⟩ rfl).2.2 0
      (by decide)⟩

theorem spiRetryLoop_ok_step (payload : List Nat) (fuel : Nat) (s : Session)
    (h : (s.dev s.sent (.spiTransfer payload)).status = 0) :
    spiRetryLoop payload (fuel + 1) s =
      (.ok (s.dev s.sent (.spiTransfer payload)),
        ⟨s.dev, s.sent ++ [.spiTransfer payload]⟩) := by
  simp [spiRetryLoop, sendRaw, h]

theorem spiRetryLoop_err_step (payload : List Nat) (fuel : Nat) (s : Session)
    (code : Nat) (hc : (s.dev s.sent (.spiTransfer payload)).status = code)
    (h0 : code ≠ 0) (hb : code ≠ 0xf8) :
    spiRetryLoop payload (fuel + 1) s =
      (.err code, ⟨s.dev, s.sent ++ [.spiTransfer payload]⟩) := by
  subst hc
  simp [spiRetryLoop, sendRaw, h0, hb]

theorem spiRetryLoop_skip_busy (payload : List Nat) :
    ∀ (N fuel : Nat) (s : Session),
      (∀ k < N, (s.dev (s.sent ++ List.replicate k (.spiTransfer payload))
        (.spiTransfer payload)).status = 0xf8) →
      spiRetryLoop payload (fuel + N) s =
        spiRetryLoop payload fuel
          ⟨s.dev, s.sent ++ List.replicate N (.spiTransfer payload)⟩
  | 0, fuel, s, _ => by simp
  | N + 1, fuel, s, hb => by
      have h0 : (s.dev s.sent (.spiTransfer payload)).status = 0xf8 := by
        have := hb 0 (Nat.succ_pos N)
        simpa using this
      have hstep : spiRetryLoop payload (fuel + (N + 1)) s =
          spiRetryLoop payload (fuel + N)
            ⟨s.dev, s.sent ++ [.spiTransfer payload]⟩ := by
        show spiRetryLoop payload ((fuel + N) + 1) s = _
        simp [spiRetryLoop, sendRaw, h0]
      have hb2 : ∀ k < N,
          (s.dev ((s.sent ++ [Command.spiTransfer payload]) ++
            List.replicate k (.spiTransfer payload))
            (.spiTransfer payload)).status = 0xf8 := by
        intro k hk
        have := hb (k + 1) (by omega)
        simpa [List.replicate_succ] using this
      rw [hstep, spiRetryLoop_skip_busy payload N fuel
        ⟨s.dev, s.sent ++ [Command.spiTransfer payload]⟩ hb2]
      simp [List.replicate_succ]

theorem spiRetryLoop_sent (payload : List Nat) :
    ∀ (fuel : Nat) (s : Session),
      ∃ n, (spiRetryLoop payload fuel s).2.dev = s.dev ∧
        (spiRetryLoop payload fuel s).2.sent =
          s.sent ++ List.replicate n (.spiTransfer payload)
  | 0, s => ⟨0, rfl, by simp [spiRetryLoop]⟩
  | fuel + 1, s => by
      by_cases h0 : (s.dev s.sent (.spiTransfer payload)).status = 0
      · exact ⟨1, by simp [spiRetryLoop, sendRaw, h0],
          by simp [spiRetryLoop, sendRaw, h0]⟩
      · by_cases hbz : (s.dev s.sent (.spiTransfer payload)).status = 0xf8
        · obtain ⟨n, hdev, hsent⟩ := spiRetryLoop_sent payload fuel
            ⟨s.dev, s.sent ++ [.spiTransfer payload]⟩
          have hred : spiRetryLoop payload (fuel + 1) s =
              spiRetryLoop payload fuel
                ⟨s.dev, s.sent ++ [.spiTransfer payload]⟩ := by
            simp [spiRetryLoop, sendRaw, h0, hbz]
          refine ⟨n + 1, ?_, ?_⟩
          · rw [hred, hdev]
          · rw [hred, hsent]
            simp [List.replicate_succ]
        · exact ⟨1, by simp [spiRetryLoop, sendRaw, h0, hbz],
            by simp [spiRetryLoop, sendRaw, h0, hbz]⟩

theorem chunkPhase_sent (data : List Nat) (fuel : Nat) :
    ∀ (offsets : List Nat) (response : List Nat) (s : Session),
      (chunkPhase data fuel offsets response s).2.dev = s.dev ∧
      ∃ ext, (chunkPhase data fuel offsets response s).2.sent = s.sent ++ ext ∧
        ∀ c ∈ ext, ∃ p, c = Command.spiTransfer p
  | [], response, s => ⟨rfl, [], by simp [chunkPhase], by simp⟩
  | i :: rest, response, s => by
      obtain ⟨n, hdev, hsent⟩ :=
        spiRetryLoop_sent ((data.drop i).take 60) fuel s
      rcases hr : spiRetryLoop ((data.drop i).take 60) fuel s with ⟨out, s1⟩
      rw [hr] at hdev hsent
      have hrepl : ∀ c ∈ List.replicate n (Command.spiTransfer
          ((data.drop i).take 60)), ∃ p, c = Command.spiTransfer p :=
        fun c hc => ⟨_, List.eq_of_mem_replicate hc⟩
      cases out with
      | ok r =>
          obtain ⟨hdev2, ext2, hsent2, hmem2⟩ :=
            chunkPhase_sent data fuel rest (response ++ r.data) s1
          refine ⟨?_, List.replicate n (Command.spiTransfer
            ((data.drop i).take 60)) ++ ext2, ?_, ?_⟩
          · rw [chunkPhase, hr]
            simp only []
            rw [hdev2, hdev]
          · rw [chunkPhase, hr]
            simp only []
            rw [hsent2, hsent, List.append_assoc]
          · intro c hc
            rcases List.mem_append.mp hc with hx | hx
            · exact hrepl c hx
            · exact hmem2 c hx
      | err e =>
          exact ⟨by rw [chunkPhase, hr]; exact hdev, List.replicate n _,
            by rw [chunkPhase, hr]; exact hsent, hrepl⟩
      | spin =>
          exact ⟨by rw [chunkPhase, hr]; exact hdev, List.replicate n _,
            by rw [chunkPhase, hr]; exact hsent, hrepl⟩

theorem drainPhase_sent (dataLen innerFuel : Nat) :
    ∀ (outer : Nat) (response : List Nat) (s : Session),
      (drainPhase dataLen innerFuel outer response s).2.dev = s.dev ∧
      ∃ m, (drainPhase dataLen innerFuel outer response s).2.sent =
        s.sent ++ List.replicate m (.spiTransfer [])
  | 0, response, s => by
      by_cases h : response.length < dataLen <;>
        exact ⟨by simp [drainPhase, h], 0, by simp [drainPhase, h]⟩
  | outer + 1, response, s => by
      by_cases h : response.length < dataLen
      · obtain ⟨n, hdev, hsent⟩ := spiRetryLoop_sent [] innerFuel s
        rcases hr : spiRetryLoop [] innerFuel s with ⟨out, s1⟩
        rw [hr] at hdev hsent
        cases out with
        | ok r =>
            obtain ⟨hdev2, m, hsent2⟩ :=
              drainPhase_sent dataLen innerFuel outer (response ++ r.data) s1
            refine ⟨?_, n + m, ?_⟩
            · rw [drainPhase]
              simp only [if_pos h]
              rw [hr]
              simp only []
              rw [hdev2, hdev]
            · rw [drainPhase]
              simp only [if_pos h]
              rw [hr]
              simp only []
              rw [hsent2, hsent, List.append_assoc, ← List.replicate_add]
        | err e =>
            refine ⟨?_, n, ?_⟩ <;> rw [drainPhase] <;> simp only [if_pos h] <;>
              rw [hr]
            · exact hdev
            · exact hsent
        | spin =>
            refine ⟨?_, n, ?_⟩ <;> rw [drainPhase] <;> simp only [if_pos h] <;>
              rw [hr]
            · exact hdev
            · exact hsent
      · exact ⟨by simp [drainPhase, h], 0, by simp [drainPhase, h]⟩

theorem drainPhase_ok_length (dataLen innerFuel : Nat) :
    ∀ (outer : Nat) (response r : List Nat) (s : Session),
      (drainPhase dataLen innerFuel outer response s).1 = .ok r →
      dataLen ≤ r.length
  | 0, response, r, s, h => by
      by_cases hlt : response.length < dataLen
      · simp [drainPhase, hlt] at h
      · simp [drainPhase, hlt] at h
        subst h
        omega
  | outer + 1, response, r, s, h => by
      by_cases hlt : response.length < dataLen
      · rw [drainPhase] at h
        simp only [if_pos hlt] at h
        rcases hr : spiRetryLoop [] innerFuel s with ⟨out, s1⟩
        rw [hr] at h
        cases out with
        | ok resp =>
            exact drainPhase_ok_length dataLen innerFuel outer
              (response ++ resp.data) r s1 h
        | err e => simp at h
        | spin => simp at h
      · rw [drainPhase] at h
        simp only [if_neg hlt] at h
        simp at h
        subst h
        omega

theorem replicate_append_single {A : Type} (n : Nat) (a : A) :
    List.replicate n a ++ [a] = a :: List.replicate n a := by
  induction n with
  | zero => rfl
  | succ n ih => simp [List.replicate_succ, ih]

/-- C2: in `transfer`, a chunk (or an empty-payload drain request) is re-sent
unchanged while the response status is Busy (0xf8); sending stops on status 0,
and any other nonzero status immediately raises `CommandException`.  A chunk
answered with N Busy statuses followed by Success is sent exactly N+1 times,
only the Success response's data is appended to the receive buffer, and the
remaining chunks continue from the advanced session unaffected. -/
theorem spi_busy_retry (payload data : List Nat) (fuel N : Nat) (s : Session)
    (hbusy : ∀ k < N,
      (s.dev (s.sent ++ List.replicate k (.spiTransfer payload))
        (.spiTransfer payload)).status = 0xf8)
    (hfuel : N < fuel) :
    ((s.dev (s.sent ++ List.replicate N (.spiTransfer payload))
        (.spiTransfer payload)).status = 0 →
      spiRetryLoop payload fuel s =
        (.ok (s.dev (s.sent ++ List.replicate N (.spiTransfer payload))
            (.spiTransfer payload)),
          ⟨s.dev, s.sent ++ List.replicate (N + 1) (.spiTransfer payload)⟩)) ∧
    (∀ code,
      (s.dev (s.sent ++ List.replicate N (.spiTransfer payload))
        (.spiTransfer payload)).status = code → code ≠ 0 → code ≠ 0xf8 →
      spiRetryLoop payload fuel s =
        (.err code,
          ⟨s.dev, s.sent ++ List.replicate (N + 1) (.spiTransfer payload)⟩)) ∧
    (∀ (offsets : List Nat) (i : Nat) (response : List Nat),
      (data.drop i).take 60 = payload →
      (s.dev (s.sent ++ List.replicate N (.spiTransfer payload))
        (.spiTransfer payload)).status = 0 →
      chunkPhase data fuel (i :: offsets) response s =
        chunkPhase data fuel offsets
          (response ++ (s.dev (s.sent ++ List.replicate N
            (.spiTransfer payload)) (.spiTransfer payload)).data)
          ⟨s.dev, s.sent ++ List.replicate (N + 1) (.spiTransfer payload)⟩) := by
  obtain ⟨m, rfl⟩ : ∃ m, fuel = (m + 1) + N := ⟨fuel - N - 1, by omega⟩
  have hskip := spiRetryLoop_skip_busy payload N (m + 1) s hbusy
  have hsucc : (s.dev (s.sent ++ List.replicate N (.spiTransfer payload))
        (.spiTransfer payload)).status = 0 →
      spiRetryLoop payload ((m + 1) + N) s =
        (.ok (s.dev (s.sent ++ List.replicate N (.spiTransfer payload))
            (.spiTransfer payload)),
          ⟨s.dev, s.sent ++ List.replicate (N + 1) (.spiTransfer payload)⟩) := by
    intro h0
    rw [hskip, spiRetryLoop_ok_step payload m
      ⟨s.dev, s.sent ++ List.replicate N (Command.spiTransfer payload)⟩ h0]
    simp [List.replicate_succ, ← List.append_assoc]
    simp [List.append_assoc, replicate_append_single]
  refine ⟨hsucc, ?_, ?_⟩
  · intro code hc h0 hb
    rw [hskip, spiRetryLoop_err_step payload m
      ⟨s.dev, s.sent ++ List.replicate N (Command.spiTransfer payload)⟩
      code hc h0 hb]
    simp [List.replicate_succ, ← List.append_assoc]
    simp [List.append_assoc, replicate_append_single]
  · intro offsets i response hchunk h0
    rw [chunkPhase, hchunk, hsucc h0]

theorem spi_busy_retry_witness :
    (∀ k < 2, (busyTwiceDevice
      (([] : List Command) ++ List.replicate k (.spiTransfer [1, 2]))
      (.spiTransfer [1, 2])).status = 0xf8) ∧
    spiRetryLoop [1, 2] 5 ⟨busyTwiceDevice, []⟩ =
      (.ok (busyTwiceDevice (List.replicate 2 (.spiTransfer [1, 2]))
          (.spiTransfer [1, 2])),
        ⟨busyTwiceDevice, List.replicate 3 (.spiTransfer [1, 2])⟩) :=
  ⟨by decide,
    (spi_busy_retry [1, 2] [] 5 2 ⟨busyTwiceDevice, []⟩ (by decide)
      (by decide)).1 rfl⟩

theorem chunkPhase_all_ok (data : List Nat) (fuel : Nat) (hfuel : 1 ≤ fuel)
    (dev : List Command → Command → Response)
    (hall : ∀ h c, (dev h c).status = 0) :
    ∀ (offsets : List Nat) (response : List Nat) (hist : List Command),
      ∃ out, chunkPhase data fuel offsets response ⟨dev, hist⟩ =
        (.ok out, ⟨dev, hist ++ offsets.map
          (fun i => .spiTransfer ((data.drop i).take 60))⟩)
  | [], response, hist => ⟨response, by simp [chunkPhase]⟩
  | i :: rest, response, hist => by
      obtain ⟨m, hm⟩ : ∃ m, fuel = m + 1 := ⟨fuel - 1, by omega⟩
      have hstep : spiRetryLoop ((data.drop i).take 60) fuel ⟨dev, hist⟩ =
          (.ok (dev hist (.spiTransfer ((data.drop i).take 60))),
            ⟨dev, hist ++ [.spiTransfer ((data.drop i).take 60)]⟩) := by
        rw [hm]
        exact spiRetryLoop_ok_step _ m ⟨dev, hist⟩ (hall hist _)
      obtain ⟨out, hout⟩ := chunkPhase_all_ok data fuel hfuel dev hall rest
        (response ++ (dev hist (.spiTransfer ((data.drop i).take 60))).data)
        (hist ++ [.spiTransfer ((data.drop i).take 60)])
      refine ⟨out, ?_⟩
      rw [chunkPhase, hstep]
      simp only []
      rw [hout]
      simp

/-- C3: `transfer` partitions the transmit buffer into consecutive chunks of
at most 60 bytes at offsets 0, 60, 120, … and sends them in ascending-offset
order, all before any empty-payload drain request; a 130-byte buffer yields
exactly 3 chunk sends of 60, 60 and 10 bytes in that order, and an 11-byte
buffer exactly one chunk send carrying the whole buffer. -/
theorem transfer_chunking (data : List Nat) (fuel : Nat) (st : SPISettings)
    (s : Session) (hall : ∀ h c, (s.dev h c).status = 0) (hfuel : 1 ≤ fuel) :
    (∃ dext, (transfer data fuel (some st) s).2.2.sent =
        s.sent ++ [.setSPISettings { st with spi_tx_size := data.length }] ++
          (chunkOffsets data.length).map
            (fun i => .spiTransfer ((data.drop i).take 60)) ++ dext ∧
        ∀ c ∈ dext, c = Command.spiTransfer []) ∧
    (∀ d : List Nat, d.length = 130 →
      (chunkOffsets d.length).map (fun i => ((d.drop i).take 60).length) =
        [60, 60, 10]) ∧
    (∀ d : List Nat, d.length = 11 →
      (chunkOffsets d.length).map (fun i => (d.drop i).take 60) = [d]) := by
  refine ⟨?_, ?_, ?_⟩
  · have hpush : rp_setter Command.setSPISettings
        { st with spi_tx_size := data.length } (some st) s =
        (.ok (), some { st with spi_tx_size := data.length },
          ⟨s.dev, s.sent ++ [.setSPISettings
            { st with spi_tx_size := data.length }]⟩) := by
      rw [rp_setter_eq]
      simp [hall]
    obtain ⟨out, hout⟩ := chunkPhase_all_ok data fuel hfuel s.dev hall
      (chunkOffsets data.length) []
      (s.sent ++ [.setSPISettings { st with spi_tx_size := data.length }])
    rcases hd : drainPhase data.length fuel fuel out
        ⟨s.dev, (s.sent ++ [Command.setSPISettings
          { st with spi_tx_size := data.length }]) ++
          (chunkOffsets data.length).map
            (fun i => Command.spiTransfer ((data.drop i).take 60))⟩
      with ⟨od, s4⟩
    obtain ⟨hdev4, m, hsent4⟩ := drainPhase_sent data.length fuel fuel out
      ⟨s.dev, (s.sent ++ [Command.setSPISettings
        { st with spi_tx_size := data.length }]) ++
        (chunkOffsets data.length).map
          (fun i => Command.spiTransfer ((data.drop i).take 60))⟩
    rw [hd] at hdev4 hsent4
    refine ⟨List.replicate m (Command.spiTransfer []), ?_,
      fun c hc => List.eq_of_mem_replicate hc⟩
    unfold transfer
    simp only [rp_getter, hpush, hout, hd]
    cases od <;> simp at hsent4 <;> simp [hsent4, List.append_assoc]
  · intro d hd
    have hoff : chunkOffsets 130 = [0, 60, 120] := by decide
    rw [hd, hoff]
    simp [hd]
  · intro d hd
    have hoff : chunkOffsets 11 = [0] := by decide
    rw [hd, hoff]
    simp [List.take_of_length_le, hd]

theorem transfer_chunking_witness :
    (∀ h c, (echoDevice h c).status = 0) ∧
    (∃ dext, (transfer [1, 2, 3] 1 (some ⟨0, 0⟩) ⟨echoDevice, []⟩).2.2.sent =
        [] ++ [.setSPISettings ⟨3, 0⟩] ++
          (chunkOffsets 3).map
            (fun i => .spiTransfer ((([1, 2, 3] : List Nat).drop i).take 60)) ++
          dext ∧
        ∀ c ∈ dext, c = Command.spiTransfer []) :=
  ⟨fun h c => by cases c <;> rfl,
    (transfer_chunking [1, 2, 3] 1 ⟨0, 0⟩ ⟨echoDevice, []⟩
      (fun h c => by cases c <;> rfl) (by decide)).1⟩

theorem transfer_none_eq (data : List Nat) (fuel : Nat) (s : Session)
    (h0 : (s.dev s.sent .getSPISettings).status = 0) :
    transfer data fuel none s =
      transfer data fuel
        (some (s.dev s.sent .getSPISettings).settings)
        ⟨s.dev, s.sent ++ [.getSPISettings]⟩ := by
  unfold transfer
  rw [rp_getter_none_eq, if_pos h0]
  rfl

/-- C8: before sending any SPI chunk, `transfer(data)` stores `len(data)` into
the `spi_tx_size` field of the SPI transfer settings (the cached value when
present, the freshly fetched one otherwise) and issues exactly one settings
push command carrying the updated settings; every command sent after that
push is an `SPITransferCommand`. -/
theorem transfer_sets_tx_size (data : List Nat) (fuel : Nat)
    (st : SPISettings) (s : Session) :
    (∃ rest, (transfer data fuel (some st) s).2.2.sent =
        s.sent ++ [.setSPISettings { st with spi_tx_size := data.length }] ++
          rest ∧
      ∀ c ∈ rest, ∃ p, c = Command.spiTransfer p) ∧
    ((s.dev s.sent .getSPISettings).status = 0 →
      ∃ rest, (transfer data fuel none s).2.2.sent =
        s.sent ++ [.getSPISettings,
          .setSPISettings { (s.dev s.sent .getSPISettings).settings with
            spi_tx_size := data.length }] ++ rest ∧
      ∀ c ∈ rest, ∃ p, c = Command.spiTransfer p) := by
  have tail : ∀ (base : List Command) (stp : SPISettings),
      ∃ rest, (transfer data fuel (some stp) ⟨s.dev, base⟩).2.2.sent =
        base ++ [.setSPISettings { stp with spi_tx_size := data.length }] ++
          rest ∧
      ∀ c ∈ rest, ∃ p, c = Command.spiTransfer p := by
    intro base stp
    have hset := rp_setter_eq Command.setSPISettings
      { stp with spi_tx_size := data.length } (some stp) ⟨s.dev, base⟩
    by_cases hp : (s.dev base (.setSPISettings
        { stp with spi_tx_size := data.length })).status = 0
    · rw [if_pos hp] at hset
      rcases hc : chunkPhase data fuel (chunkOffsets data.length) []
          ⟨s.dev, base ++ [.setSPISettings
            { stp with spi_tx_size := data.length }]⟩ with ⟨oc, s3⟩
      obtain ⟨hdev3, ext, hsent3, hmem⟩ := chunkPhase_sent data fuel
        (chunkOffsets data.length) []
        ⟨s.dev, base ++ [.setSPISettings
          { stp with spi_tx_size := data.length }]⟩
      rw [hc] at hdev3 hsent3
      simp at hdev3 hsent3
      cases oc with
      | ok resp =>
          rcases hd : drainPhase data.length fuel fuel resp s3 with ⟨od, s4⟩
          obtain ⟨hdev4, m, hsent4⟩ :=
            drainPhase_sent data.length fuel fuel resp s3
          rw [hd] at hdev4 hsent4
          simp at hdev4 hsent4
          refine ⟨ext ++ List.replicate m (Command.spiTransfer []), ?_, ?_⟩
          · unfold transfer
            simp only [rp_getter, hset, hc, hd]
            cases od <;> simp [hsent4, hsent3, List.append_assoc]
          · intro c hcm
            rcases List.mem_append.mp hcm with hx | hx
            · exact hmem c hx
            · exact ⟨[], List.eq_of_mem_replicate hx⟩
      | err e =>
          refine ⟨ext, ?_, hmem⟩
          unfold transfer
          simp only [rp_getter, hset, hc]
          simp [hsent3, List.append_assoc]
      | spin =>
          refine ⟨ext, ?_, hmem⟩
          unfold transfer
          simp only [rp_getter, hset, hc]
          simp [hsent3, List.append_assoc]
    · rw [if_neg hp] at hset
      refine ⟨[], ?_, by simp⟩
      unfold transfer
      simp only [rp_getter, hset]
      simp
  constructor
  · simpa using tail s.sent st
  · intro h0
    rw [transfer_none_eq data fuel s h0]
    obtain ⟨rest, hsent, hmem⟩ := tail (s.sent ++ [Command.getSPISettings])
      (s.dev s.sent .getSPISettings).settings
    exact ⟨rest, by simpa [List.append_assoc] using hsent, hmem⟩

theorem transfer_sets_tx_size_witness :
    (∃ rest, (transfer [1, 2] 1 (some ⟨0, 0⟩) ⟨echoDevice, []⟩).2.2.sent =
        [] ++ [.setSPISettings ⟨2, 0⟩] ++ rest ∧
      ∀ c ∈ rest, ∃ p, c = Command.spiTransfer p) ∧
    (∃ rest, (transfer [1, 2] 1 none ⟨echoDevice, []⟩).2.2.sent =
        [] ++ [.getSPISettings, .setSPISettings ⟨2, 0⟩] ++ rest ∧
      ∀ c ∈ rest, ∃ p, c = Command.spiTransfer p) :=
  ⟨(transfer_sets_tx_size [1, 2] 1 ⟨0, 0⟩ ⟨echoDevice, []⟩).1,
    (transfer_sets_tx_size [1, 2] 1 ⟨0, 0⟩ ⟨echoDevice, []⟩).2 rfl⟩

/-- C1 counterexample: the claim says the receive buffer returned by
`transfer` has length exactly `len(txBuffer)` for every device behaviour
under which the call completes without raising.  Against a device whose
single SPI response to the one-byte transmit buffer `[5]` carries two data
bytes, `transfer` completes without raising and returns a two-byte buffer:
the code performs no truncation or verification. -/
theorem transfer_exact_length_cex :
    (transfer [5] 1 (some ⟨0, 0⟩) ⟨twoByteDevice, []⟩).1 =
      .ok [0, 0] ∧
    ¬ (([0, 0] : List Nat).length = ([5] : List Nat).length) := by
  refine ⟨?_, by decide⟩
  rfl

/-- C1 (amended): whenever `transfer(txBuffer)` completes without raising,
the returned receive buffer has length at least `len(txBuffer)` — the drain
loop runs until at least that many bytes have accumulated, but the code never
truncates, so a device returning surplus bytes yields a longer buffer. -/
theorem transfer_ok_length (data : List Nat) (fuel : Nat)
    (cache : Option SPISettings) (s : Session) (r : List Nat)
    (h : (transfer data fuel cache s).1 = .ok r) :
    data.length ≤ r.length := by
  unfold transfer at h
  rcases hg : rp_getter Response.settings .getSPISettings cache s
    with ⟨eg, cg, sg⟩
  rw [hg] at h
  cases eg with
  | error e => simp at h
  | ok st =>
      rcases hs : rp_setter Command.setSPISettings
          { st with spi_tx_size := data.length } cg sg with ⟨es, cs, ss⟩
      simp only [] at h
      rw [hs] at h
      cases es with
      | error e => simp at h
      | ok u =>
          simp only [] at h
          rcases hc : chunkPhase data fuel (chunkOffsets data.length) [] ss
            with ⟨oc, s3⟩
          rw [hc] at h
          cases oc with
          | err e => simp at h
          | spin => simp at h
          | ok resp =>
              simp only [] at h
              rcases hd : drainPhase data.length fuel fuel resp s3
                with ⟨od, s4⟩
              rw [hd] at h
              cases od with
              | err e => simp at h
              | spin => simp at h
              | ok r2 =>
                  simp at h
                  subst h
                  exact drainPhase_ok_length data.length fuel fuel resp r2 s3
                    (by rw [hd])

theorem transfer_ok_length_witness :
    ([1, 2, 3] : List Nat).length ≤ ([1, 2, 3] : List Nat).length :=
  transfer_ok_length [1, 2, 3] 1 (some ⟨0, 0⟩) ⟨echoDevice, []⟩ [1, 2, 3]
    (by rfl)
